import Mathlib

/-!
Shallow embedding of the Globa_Lingo real-time relay server
(`src/backend/src/server.js`, `src/backend/src/models/Message.js`, and the
extended server variant with video-call rooms) together with proofs about
its presence registry, conversation-id derivation, message store mutations,
history retrieval, call-room negotiation and failure surface.
-/

namespace GlobaLingo

/-- JS `s || d` for strings: the empty string is falsy. -/
def strOr (s d : String) : String := if s = "" then d else s

/-- JS truthiness filter for an optional string field (`if (x) data.x = x`):
an absent or empty string is not copied. -/
def jsOptStr (o : Option String) : Option String :=
  match o with
  | some s => if s = "" then none else some s
  | none => none

/-- JS truthiness filter for an optional numeric field: absent or `0` is falsy. -/
def jsOptNat (o : Option Nat) : Option Nat :=
  match o with
  | some n => if n = 0 then none else some n
  | none => none

/-- A JS `Map` keyed by strings, as an insertion-ordered association list.
`Map.set` updates an existing key in place, otherwise appends. -/
def amSet {α : Type} (m : List (String × α)) (k : String) (v : α) :
    List (String × α) :=
  if m.any (fun p => p.1 == k) then
    m.map (fun p => if p.1 == k then (k, v) else p)
  else m ++ [(k, v)]

/-- JS `Map.get`: the value stored under `k`, if any. -/
def amGet {α : Type} (m : List (String × α)) (k : String) : Option α :=
  (m.find? (fun p => p.1 == k)).map Prod.snd

theorem find?_map_update {α : Type} (m : List (String × α)) (k : String) (v : α)
    (hany : m.any (fun p => p.1 == k) = true) :
    (m.map (fun p => if p.1 == k then (k, v) else p)).find? (fun p => p.1 == k) =
      some (k, v) := by
  induction m with
  | nil => simp at hany
  | cons p m ih =>
    simp only [List.map_cons]
    by_cases hk : (p.1 == k) = true
    · rw [if_pos hk]
      exact List.find?_cons_of_pos _ (by simp)
    · rw [if_neg hk]
      rw [@List.find?_cons_of_neg _ (fun q => q.1 == k) p
        (List.map (fun q => if q.1 == k then (k, v) else q) m) hk]
      simp only [List.any_cons, hk, Bool.false_or] at hany
      exact ih hany

theorem amGet_amSet_self {α : Type} (m : List (String × α)) (k : String) (v : α) :
    amGet (amSet m k v) k = some v := by
  unfold amSet amGet
  by_cases hany : m.any (fun p => p.1 == k) = true
  · rw [if_pos hany, find?_map_update m k v hany]
    rfl
  · rw [if_neg hany, List.find?_append]
    have hnone : m.find? (fun p => p.1 == k) = none := by
      rw [List.find?_eq_none]
      intro p hp hpk
      exact hany (List.any_eq_true.mpr ⟨p, hp, hpk⟩)
    rw [hnone]
    simp

theorem amSet_of_fresh {α : Type} (m : List (String × α)) (k : String) (v : α)
    (h : ∀ p ∈ m, p.1 ≠ k) : amSet m k v = m ++ [(k, v)] := by
  unfold amSet
  rw [if_neg]
  simp only [List.any_eq_true, not_exists, not_and]
  intro p hp
  simpa using h p hp

/-! ## Presence Registry (`server.js` lines 55, 67–85, 120–122) -/

/-- The profile a client supplies on `user:join`. -/
structure UserData where
  uid : String
  fullName : String
deriving DecidableEq

/-- The `user:join` handler's registration,
`activeUsers.set(socket.id, {...userData, socketId, joinedAt})`:
the map is keyed by the *socket id*. -/
def userJoinRegister (activeUsers : List (String × UserData))
    (socketId : String) (userData : UserData) : List (String × UserData) :=
  amSet activeUsers socketId userData

/-- The presence lookup used by `chat:message`, reactions, edits and
signaling: `Array.from(activeUsers.entries()).find(([_, user]) => user._id === targetUserId)`. -/
def lookupUserSocket (activeUsers : List (String × UserData))
    (targetUserId : String) : Option (String × UserData) :=
  activeUsers.find? (fun p => p.2.uid == targetUserId)

/-! ## Conversation id derivation (`server.js` lines 94 and 172) -/

/-- Conversation id derivation `[a, b].sort().join("-")`: default JS sort on
a two-element string array orders the pair lexicographically, then the two
are joined with `-`. -/
def deriveConversationId (a b : String) : String :=
  if a ≤ b then a ++ "-" ++ b else b ++ "-" ++ a

/-- Conversation id computed by the `chat:message` handler (line 94). -/
def chatMessageConversationId (senderId targetUserId : String) : String :=
  deriveConversationId senderId targetUserId

/-- Conversation id computed by the `chat:get-history` handler (line 172). -/
def historyRequestConversationId (userId targetUserId : String) : String :=
  deriveConversationId userId targetUserId

/-! ## Claims C1 and C2 -/

/-- The presence map after user `u1` joins on socket `s1` and then joins
again on a fresh socket `s2`. -/
def rejoinState : List (String × UserData) :=
  userJoinRegister (userJoinRegister [] "s1" ⟨"u1", "Alice"⟩) "s2" ⟨"u1", "Alice"⟩

/-- Claim C1 is false on the code: `activeUsers` is keyed by socket id, so a
second join by the same user adds a second entry instead of replacing the
first, and the presence lookup (a `find` over insertion-ordered entries)
still yields the *old* connection `s1`, which remains registered. -/
theorem register_not_last_writer_wins :
    (lookupUserSocket rejoinState "u1").map Prod.fst = some "s1" ∧
    ("s1" : String) ≠ "s2" ∧
    amGet rejoinState "s1" = some ⟨"u1", "Alice"⟩ ∧
    ¬ ((lookupUserSocket rejoinState "u1").map Prod.fst = some "s2" ∧
       amGet rejoinState "s1" = none) := by
  refine ⟨by decide, by decide, by decide, ?_⟩
  intro h
  have := h.1
  revert this
  decide

/-- Amended C1: registration is keyed by the connection id, so registering a
user who already holds connection `c1` under a fresh connection `c2` leaves
`c1` registered with its old profile, keeps the presence lookup answering
`c1` (first-writer-wins per user), and additionally registers `c2`. -/
theorem register_keeps_first_connection
    (m : List (String × UserData)) (c1 c2 u : String) (d1 d2 : UserData)
    (h1 : lookupUserSocket m u = some (c1, d1))
    (h2 : ∀ p ∈ m, p.1 ≠ c2) :
    lookupUserSocket (userJoinRegister m c2 d2) u = some (c1, d1) ∧
    amGet (userJoinRegister m c2 d2) c2 = some d2 := by
  have hfresh : userJoinRegister m c2 d2 = m ++ [(c2, d2)] :=
    amSet_of_fresh m c2 d2 h2
  constructor
  · rw [hfresh]
    unfold lookupUserSocket at h1 ⊢
    rw [List.find?_append, h1]
    rfl
  · rw [hfresh]
    unfold amGet
    rw [List.find?_append]
    have hnone : m.find? (fun p => p.1 == c2) = none := by
      rw [List.find?_eq_none]
      intro p hp
      simpa using h2 p hp
    rw [hnone]
    simp

/-- Witness for the amended C1 at a concrete presence map. -/
theorem register_keeps_first_connection_witness :
    lookupUserSocket [("s1", (⟨"u1", "Alice"⟩ : UserData))] "u1" = some ("s1", ⟨"u1", "Alice"⟩) ∧
    (∀ p ∈ [("s1", (⟨"u1", "Alice"⟩ : UserData))], p.1 ≠ "s2") ∧
    lookupUserSocket (userJoinRegister [("s1", ⟨"u1", "Alice"⟩)] "s2" ⟨"u1", "Bob"⟩) "u1" =
      some ("s1", ⟨"u1", "Alice"⟩) ∧
    amGet (userJoinRegister [("s1", ⟨"u1", "Alice"⟩)] "s2" ⟨"u1", "Bob"⟩) "s2" =
      some ⟨"u1", "Bob"⟩ := by
  refine ⟨by decide, by decide, ?_⟩
  have h := register_keeps_first_connection [("s1", ⟨"u1", "Alice"⟩)] "s1" "s2" "u1"
    ⟨"u1", "Alice"⟩ ⟨"u1", "Bob"⟩ (by decide) (by decide)
  exact h

/-- Claim C2: conversation-id derivation is commutative, and both call sites
(message send, line 94; history fetch, line 172) use the same derivation. -/
theorem conversationId_commutative (a b : String) :
    deriveConversationId a b = deriveConversationId b a ∧
    chatMessageConversationId a b = deriveConversationId a b ∧
    historyRequestConversationId a b = deriveConversationId a b := by
  refine ⟨?_, rfl, rfl⟩
  unfold deriveConversationId
  rcases lt_trichotomy a b with h | h | h
  · rw [if_pos h.le, if_neg (not_le.mpr h)]
  · subst h; simp
  · rw [if_neg (not_le.mpr h), if_pos h.le]

/-! ## Message model (`models/Message.js`) -/

/-- One entry of the `reactions` array: `{userId, emoji, createdAt}`. -/
structure Reaction where
  userId : String
  emoji : String
  createdAt : Nat
deriving DecidableEq

/-- A persisted chat message, following `messageSchema`. -/
structure Message where
  mongoId : String
  senderId : String
  receiverId : String
  text : String
  messageType : String
  fileUrl : Option String
  fileName : Option String
  fileSize : Option Nat
  replyTo : Option String
  reactions : List Reaction
  isRead : Bool
  conversationId : String
  isEdited : Bool
  editedAt : Option Nat
  isDeleted : Bool
  deletedAt : Option Nat
  createdAt : Nat
deriving DecidableEq

/-- The `messageType` enum of the schema. -/
def messageTypeEnum : List String :=
  ["text", "image", "file", "call-invite", "call-ended"]

/-- The document fields handed to `Message.create` by the `chat:message`
handler; `Option` distinguishes absent fields. -/
structure MessageDraft where
  senderId : Option String
  receiverId : Option String
  text : Option String
  messageType : String
  fileUrl : Option String
  fileName : Option String
  fileSize : Option Nat
  replyTo : Option String
  conversationId : Option String
deriving DecidableEq

/-- Mongoose `required: true` on a `String` path: fails when the field is
absent or the empty string. -/
def checkRequiredString (v : Option String) : Bool :=
  match v with
  | some s => !(s == "")
  | none => false

/-- Mongoose `required: true` on an `ObjectId` path: fails when absent. -/
def checkRequiredId (v : Option String) : Bool := v.isSome

/-- Schema validation run by `Message.create`: `senderId`, `receiverId`,
`text` and `conversationId` are required; `messageType` must be in the enum. -/
def validateMessage (d : MessageDraft) : Bool :=
  checkRequiredId d.senderId && checkRequiredId d.receiverId &&
  checkRequiredString d.text && checkRequiredString d.conversationId &&
  messageTypeEnum.contains d.messageType

/-- Outcome of a handler: either a value, or the message text of the generic
`error` event emitted to the originating socket. -/
inductive HandlerResult (α : Type) where
  | ok (value : α)
  | errorMsg (message : String)
deriving DecidableEq

/-- Mongoose `Message.create(messageData)`: validates, then stores the document with
schema defaults (`reactions = []`, `isRead = false`, `isEdited = false`,
`isDeleted = false`) and a fresh id and `createdAt` timestamp. -/
def messageCreate (d : MessageDraft) (newId : String) (now : Nat) :
    Except Unit Message :=
  if validateMessage d then
    .ok { mongoId := newId
          senderId := d.senderId.getD ""
          receiverId := d.receiverId.getD ""
          text := d.text.getD ""
          messageType := d.messageType
          fileUrl := d.fileUrl
          fileName := d.fileName
          fileSize := d.fileSize
          replyTo := d.replyTo
          reactions := []
          isRead := false
          conversationId := d.conversationId.getD ""
          isEdited := false
          editedAt := none
          isDeleted := false
          deletedAt := none
          createdAt := now }
  else .error ()

/-- Mongoose `Message.findById(messageId)` over the store. -/
def findById (store : List Message) (messageId : String) : Option Message :=
  store.find? (fun m => m.mongoId == messageId)

/-- Mongoose `message.save()`: persists the mutated document under its id. -/
def saveMessage (store : List Message) (updated : Message) : List Message :=
  store.map (fun m => if m.mongoId == updated.mongoId then updated else m)

/-- The `chat:message` handler (`server.js` lines 88–166): derives the
conversation id, copies truthy optional fields, and creates the message;
any failure is caught and surfaced as `error: "Failed to send message"`. -/
def chatMessageHandler (store : List Message)
    (targetUserId : String) (message : Option String) (senderId : String)
    (messageType : Option String) (fileUrl fileName : Option String)
    (fileSize : Option Nat) (replyTo : Option String)
    (newId : String) (now : Nat) :
    List Message × HandlerResult Message :=
  let conversationId := deriveConversationId senderId targetUserId
  let draft : MessageDraft :=
    { senderId := some senderId
      receiverId := some targetUserId
      text := message
      messageType := strOr (messageType.getD "") "text"
      fileUrl := jsOptStr fileUrl
      fileName := jsOptStr fileName
      fileSize := jsOptNat fileSize
      replyTo := jsOptStr replyTo
      conversationId := some conversationId }
  match messageCreate draft newId now with
  | .ok m => (store ++ [m], .ok m)
  | .error _ => (store, .errorMsg "Failed to send message")

/-- Result payload of a successful `message:react`: the updated reaction
array and the reported action. -/
structure ReactResult where
  reactions : List Reaction
  action : String
deriving DecidableEq

/-- The `message:react` handler (`server.js` lines 210–264): looks the
message up by id; removes the exact `(userId, emoji)` reaction if present,
otherwise appends it; an unknown id yields `error: "Message not found"`. -/
def messageReact (store : List Message) (messageId userId emoji : String)
    (now : Nat) : List Message × HandlerResult ReactResult :=
  match findById store messageId with
  | none => (store, .errorMsg "Message not found")
  | some message =>
    let existing := message.reactions.any
      (fun r => r.userId == userId && r.emoji == emoji)
    let newReactions :=
      if existing then
        message.reactions.filter
          (fun r => !(r.userId == userId && r.emoji == emoji))
      else
        message.reactions ++ [⟨userId, emoji, now⟩]
    let updated := { message with reactions := newReactions }
    (saveMessage store updated,
     .ok ⟨newReactions, if existing then "removed" else "added"⟩)

/-- The `message:edit` handler (`server.js` lines 267–315): only the sender
may edit; success sets `text`, `isEdited = true`, `editedAt = now`. -/
def messageEdit (store : List Message) (messageId userId newText : String)
    (now : Nat) : List Message × HandlerResult Unit :=
  match findById store messageId with
  | none => (store, .errorMsg "Message not found")
  | some message =>
    if message.senderId == userId then
      let updated := { message with
        text := newText, isEdited := true, editedAt := some now }
      (saveMessage store updated, .ok ())
    else
      (store, .errorMsg "You can only edit your own messages")

/-- The `message:delete` handler (`server.js` lines 318–365): only the
sender may delete; the text is replaced by a fixed tombstone placeholder. -/
def messageDelete (store : List Message) (messageId userId : String)
    (now : Nat) : List Message × HandlerResult Unit :=
  match findById store messageId with
  | none => (store, .errorMsg "Message not found")
  | some message =>
    if message.senderId == userId then
      let updated := { message with
        text := "This message was deleted", isDeleted := true,
        deletedAt := some now }
      (saveMessage store updated, .ok ())
    else
      (store, .errorMsg "You can only delete your own messages")

/-- Sort key of `.sort({ createdAt: -1 })`: most recent first. -/
def byCreatedAtDesc (a b : Message) : Bool :=
  decide (b.createdAt ≤ a.createdAt)

/-- The `chat:get-history` handler's query (`server.js` lines 169–207):
`Message.find({conversationId}).sort({createdAt: -1}).limit(limit)` followed
by the JS `messages.reverse()`. -/
def chatGetHistory (store : List Message) (userId targetUserId : String)
    (limit : Nat) : List Message :=
  let conversationId := historyRequestConversationId userId targetUserId
  ((((store.filter (fun m => m.conversationId == conversationId)).mergeSort
      byCreatedAtDesc).take limit)).reverse

/-- After `save`, looking the id up again yields exactly the updated
document, provided the update keeps the found document's id. -/
theorem findById_saveMessage (store : List Message) (mid : String)
    (m upd : Message) (h : findById store mid = some m)
    (hid : upd.mongoId = m.mongoId) :
    findById (saveMessage store upd) mid = some upd := by
  have hpm : (m.mongoId == mid) = true := by
    have h' : store.find? (fun mm => mm.mongoId == mid) = some m := h
    exact @List.find?_some _ (fun mm => mm.mongoId == mid) m store h'
  induction store with
  | nil => simp [findById] at h
  | cons x xs ih =>
    unfold findById at h ⊢
    unfold saveMessage
    by_cases hx : (x.mongoId == mid) = true
    · have hxm : x = m := by
        have := @List.find?_cons_of_pos _ (fun mm => mm.mongoId == mid) x xs hx
        rw [this] at h
        exact Option.some.inj h
      have hxu : (x.mongoId == upd.mongoId) = true := by
        rw [hid, hxm]
        simp
      simp only [List.map_cons, hxu, if_true]
      have hpu : (upd.mongoId == mid) = true := by
        rw [hid, ← hxm]
        exact hx
      exact List.find?_cons_of_pos _ hpu
    · have hxu : (x.mongoId == upd.mongoId) = false := by
        rw [hid]
        have h1 : m.mongoId = mid := by simpa using hpm
        have h2 : ¬ x.mongoId = mid := by simpa using hx
        simp [h1, h2]
      have hx' : (x.mongoId == mid) = false := by simpa using hx
      simp only [List.map_cons, hxu, Bool.false_eq_true, if_false]
      simp only [List.find?_cons, hx'] at h ⊢
      exact ih h

/-! ## Claim C4: text is always required -/

/-- Claim C4 is false on the code: the `text` path of `messageSchema` is
`required: true`, so a draft carrying only file metadata and no text is
rejected by validation and surfaced as the generic error event, not
accepted. -/
theorem fileOnly_draft_rejected :
    chatMessageHandler [] "u2" none "u1" (some "file") (some "data:app") (some "doc.pdf")
      (some 5) none "m9" 0 = ([], .errorMsg "Failed to send message") := by
  decide

/-- Amended C4: `Message.create` succeeds exactly when `senderId`,
`receiverId`, a non-empty `text` and a non-empty `conversationId` are
present and `messageType` is in the schema enum — file metadata never
substitutes for text — and a send with no text is surfaced to the sender
as the generic `error` event, leaving the store unchanged. -/
theorem messageCreate_requires_text (d : MessageDraft) (newId : String)
    (now : Nat) :
    ((∃ m, messageCreate d newId now = .ok m) ↔ validateMessage d = true) ∧
    (validateMessage d = true ↔
      (d.senderId.isSome = true ∧ d.receiverId.isSome = true ∧
       checkRequiredString d.text = true ∧
       checkRequiredString d.conversationId = true ∧
       d.messageType ∈ messageTypeEnum)) ∧
    (∀ (store : List Message) (targetUserId senderId : String)
       (messageType fileUrl fileName : Option String) (fileSize : Option Nat)
       (replyTo : Option String) (nid : String) (t : Nat),
      chatMessageHandler store targetUserId none senderId messageType fileUrl
        fileName fileSize replyTo nid t =
        (store, .errorMsg "Failed to send message")) := by
  refine ⟨?_, ?_, ?_⟩
  · unfold messageCreate
    by_cases hv : validateMessage d = true
    · simp [hv]
    · simp [hv]
  · unfold validateMessage checkRequiredId
    simp [Bool.and_eq_true, and_assoc, List.contains_eq_any_beq,
      List.any_eq_true, beq_iff_eq]
  · intro store targetUserId senderId messageType fileUrl fileName fileSize replyTo nid t
    unfold chatMessageHandler messageCreate
    have : validateMessage
        { senderId := some senderId
          receiverId := some targetUserId
          text := none
          messageType := strOr (messageType.getD "") "text"
          fileUrl := jsOptStr fileUrl
          fileName := jsOptStr fileName
          fileSize := jsOptNat fileSize
          replyTo := jsOptStr replyTo
          conversationId := some (deriveConversationId senderId targetUserId) } = false := by
      unfold validateMessage checkRequiredString
      simp
    simp only [this]
    rfl

/-- Witness for the amended C4 at a concrete file-only draft. -/
theorem messageCreate_requires_text_witness :
    ¬ validateMessage
        { senderId := some "u1", receiverId := some "u2", text := none
          messageType := "file", fileUrl := some "data:app"
          fileName := some "doc.pdf", fileSize := some 5, replyTo := none
          conversationId := some "u1-u2" } = true ∧
    ¬ (∃ m, messageCreate
        { senderId := some "u1", receiverId := some "u2", text := none
          messageType := "file", fileUrl := some "data:app"
          fileName := some "doc.pdf", fileSize := some 5, replyTo := none
          conversationId := some "u1-u2" } "m9" 0 = .ok m) := by
  have h := messageCreate_requires_text
    { senderId := some "u1", receiverId := some "u2", text := none
      messageType := "file", fileUrl := some "data:app"
      fileName := some "doc.pdf", fileSize := some 5, replyTo := none
      conversationId := some "u1-u2" } "m9" 0
  refine ⟨by decide, ?_⟩
  intro hex
  have := h.1.mp hex
  revert this
  decide

/-- A fixed stored message used to instantiate the handler theorems. -/
def demoMsg : Message :=
  { mongoId := "m1", senderId := "u1", receiverId := "u2", text := "hi"
    messageType := "text", fileUrl := none, fileName := none, fileSize := none
    replyTo := none, reactions := [], isRead := false
    conversationId := "u1-u2", isEdited := false, editedAt := none
    isDeleted := false, deletedAt := none, createdAt := 1 }

/-- A one-message store used to instantiate the handler theorems. -/
def demoStore : List Message := [demoMsg]

/-! ## Claim C6: editing is owner-only -/

/-- Claim C6: `message:edit` by a non-sender fails with the permission error
and leaves the store unchanged; an edit by the sender succeeds, setting
`text` to the new text, `isEdited` to `true` and `editedAt` to now. -/
theorem edit_owner_only (store : List Message) (mid u newText : String)
    (now : Nat) (m : Message) (hm : findById store mid = some m) :
    (m.senderId ≠ u →
      messageEdit store mid u newText now =
        (store, .errorMsg "You can only edit your own messages")) ∧
    (m.senderId = u →
      (messageEdit store mid u newText now).2 = .ok () ∧
      findById (messageEdit store mid u newText now).1 mid =
        some { m with text := newText, isEdited := true, editedAt := some now }) := by
  constructor
  · intro hne
    have hb : (m.senderId == u) = false := by simpa using hne
    simp [messageEdit, hm, hb]
  · intro heq
    have hb : (m.senderId == u) = true := by simpa using heq
    constructor
    · simp [messageEdit, hm, hb]
    · have hgoal : (messageEdit store mid u newText now).1 =
          saveMessage store { m with text := newText, isEdited := true, editedAt := some now } := by
        simp [messageEdit, hm, hb]
      rw [hgoal]
      exact findById_saveMessage store mid m _ hm rfl

/-- Witness for C6 at a concrete store: the sender's own edit succeeds. -/
theorem edit_owner_only_witness :
    findById demoStore "m1" = some demoMsg ∧
    demoMsg.senderId = "u1" ∧
    ((messageEdit demoStore "m1" "u1" "hey" 7).2 = .ok () ∧
     findById (messageEdit demoStore "m1" "u1" "hey" 7).1 "m1" =
       some { demoMsg with text := "hey", isEdited := true, editedAt := some 7 }) := by
  refine ⟨by decide, by decide, ?_⟩
  exact (edit_owner_only demoStore "m1" "u1" "hey" 7 demoMsg (by decide)).2 (by decide)

/-! ## Claim C5: reacting is a toggle -/

theorem any_reaction_iff (rs : List Reaction) (u e : String) :
    rs.any (fun r => r.userId == u && r.emoji == e) = true ↔
    ∃ r ∈ rs, r.userId = u ∧ r.emoji = e := by
  simp [List.any_eq_true, Bool.and_eq_true, beq_iff_eq]

theorem filter_not_of_any_false {α : Type} (rs : List α) (p : α → Bool)
    (h : rs.any p = false) : rs.filter (fun r => !(p r)) = rs := by
  apply List.filter_eq_self.mpr
  intro r hr
  have : ¬ p r = true := by
    intro hp
    rw [Bool.eq_false_iff] at h
    exact h (List.any_eq_true.mpr ⟨r, hr, hp⟩)
  simp [this]

theorem any_filter_not {α : Type} (rs : List α) (p : α → Bool) :
    (rs.filter (fun r => !(p r))).any p = false := by
  rw [Bool.eq_false_iff]
  intro hsome
  obtain ⟨r, hr, hp⟩ := List.any_eq_true.mp hsome
  have := (List.mem_filter.mp hr).2
  rw [hp] at this
  simp at this

/-- Claim C5: `message:react` on an unknown id fails with "Message not
found" and changes nothing; on a stored message it appends the `(u, e)`
reaction when absent (action "added") and filters exactly that reaction out
when present (action "removed"); two consecutive identical calls restore
the original `(userId, emoji)` reaction set. -/
theorem react_toggle (store : List Message) (mid u e : String) (t1 t2 : Nat) :
    (findById store mid = none →
      messageReact store mid u e t1 = (store, .errorMsg "Message not found")) ∧
    (∀ m, findById store mid = some m →
      ((∀ r ∈ m.reactions, ¬(r.userId = u ∧ r.emoji = e)) →
        (messageReact store mid u e t1).2 =
          .ok ⟨m.reactions ++ [⟨u, e, t1⟩], "added"⟩) ∧
      ((∃ r ∈ m.reactions, r.userId = u ∧ r.emoji = e) →
        (messageReact store mid u e t1).2 =
          .ok ⟨m.reactions.filter (fun r => !(r.userId == u && r.emoji == e)),
               "removed"⟩) ∧
      (∃ m2, findById
          (messageReact (messageReact store mid u e t1).1 mid u e t2).1 mid =
            some m2 ∧
        ∀ q : String × String,
          (∃ r ∈ m2.reactions, r.userId = q.1 ∧ r.emoji = q.2) ↔
          (∃ r ∈ m.reactions, r.userId = q.1 ∧ r.emoji = q.2))) := by
  constructor
  · intro h
    simp [messageReact, h]
  · intro m hm
    refine ⟨?_, ?_, ?_⟩
    · intro hab
      have hex : m.reactions.any (fun r => r.userId == u && r.emoji == e) = false := by
        rw [Bool.eq_false_iff]
        intro h
        obtain ⟨r, hr, h1, h2⟩ := (any_reaction_iff m.reactions u e).mp h
        exact hab r hr ⟨h1, h2⟩
      simp [messageReact, hm, hex]
    · intro hpres
      have hex : m.reactions.any (fun r => r.userId == u && r.emoji == e) = true :=
        (any_reaction_iff m.reactions u e).mpr hpres
      simp [messageReact, hm, hex]
    · have step : ∀ (st : List Message) (mm : Message) (t : Nat),
          findById st mid = some mm →
          (messageReact st mid u e t).1 =
            saveMessage st { mm with reactions := if mm.reactions.any (fun r => r.userId == u && r.emoji == e) then mm.reactions.filter (fun r => !(r.userId == u && r.emoji == e)) else mm.reactions ++ [⟨u, e, t⟩] } := by
        intro st mm t h
        by_cases hc : mm.reactions.any (fun r => r.userId == u && r.emoji == e) = true
        · simp [messageReact, h, hc]
        · have hc' := Bool.eq_false_iff.mpr hc
          simp [messageReact, h, hc']
      by_cases hex : m.reactions.any (fun r => r.userId == u && r.emoji == e) = true
      · -- the reaction is present: call 1 removes it, call 2 re-adds it
        have h1 : (messageReact store mid u e t1).1 =
            saveMessage store { m with reactions := m.reactions.filter (fun r => !(r.userId == u && r.emoji == e)) } := by
          rw [step store m t1 hm, if_pos hex]
        have hf1 : findById (messageReact store mid u e t1).1 mid =
            some { m with reactions := m.reactions.filter (fun r => !(r.userId == u && r.emoji == e)) } := by
          rw [h1]
          exact findById_saveMessage store mid m _ hm rfl
        have hex2 : (m.reactions.filter
            (fun r => !(r.userId == u && r.emoji == e))).any
              (fun r => r.userId == u && r.emoji == e) = false :=
          any_filter_not m.reactions _
        have h2 : (messageReact (messageReact store mid u e t1).1 mid u e t2).1 =
            saveMessage (messageReact store mid u e t1).1
              { m with reactions := m.reactions.filter (fun r => !(r.userId == u && r.emoji == e)) ++ [⟨u, e, t2⟩] } := by
          rw [step _ _ t2 hf1, if_neg (by rw [hex2]; decide)]
        refine ⟨{ m with reactions := m.reactions.filter (fun r => !(r.userId == u && r.emoji == e)) ++ [⟨u, e, t2⟩] }, ?_, ?_⟩
        · rw [h2]
          exact findById_saveMessage (messageReact store mid u e t1).1 mid _ _ hf1 rfl
        · intro q
          constructor
          · rintro ⟨r, hr, hq1, hq2⟩
            rcases List.mem_append.mp hr with hr | hr
            · exact ⟨r, (List.mem_filter.mp hr).1, hq1, hq2⟩
            · have hrv : r = ⟨u, e, t2⟩ := by simpa using hr
              obtain ⟨r0, hr0, h01, h02⟩ := (any_reaction_iff m.reactions u e).mp hex
              subst hrv
              exact ⟨r0, hr0, by rw [h01]; exact hq1, by rw [h02]; exact hq2⟩
          · rintro ⟨r, hr, hq1, hq2⟩
            by_cases hmatch : (r.userId == u && r.emoji == e) = true
            · have huv : r.userId = u ∧ r.emoji = e := by
                simpa [Bool.and_eq_true, beq_iff_eq] using hmatch
              refine ⟨⟨u, e, t2⟩, List.mem_append.mpr (Or.inr (by simp)), ?_, ?_⟩
              · rw [← huv.1]; exact hq1
              · rw [← huv.2]; exact hq2
            · refine ⟨r, List.mem_append.mpr (Or.inl ?_), hq1, hq2⟩
              exact List.mem_filter.mpr ⟨hr, by simp [hmatch]⟩
      · -- the reaction is absent: call 1 appends it, call 2 removes it again
        have hexf : m.reactions.any (fun r => r.userId == u && r.emoji == e) = false :=
          Bool.eq_false_iff.mpr hex
        have h1 : (messageReact store mid u e t1).1 =
            saveMessage store { m with reactions := m.reactions ++ [⟨u, e, t1⟩] } := by
          rw [step store m t1 hm, if_neg (by rw [hexf]; decide)]
        have hf1 : findById (messageReact store mid u e t1).1 mid =
            some { m with reactions := m.reactions ++ [⟨u, e, t1⟩] } := by
          rw [h1]
          exact findById_saveMessage store mid m _ hm rfl
        have hex2 : (m.reactions ++ [(⟨u, e, t1⟩ : Reaction)]).any
            (fun r => r.userId == u && r.emoji == e) = true := by
          simp [List.any_append]
        have hfilter : (m.reactions ++ [(⟨u, e, t1⟩ : Reaction)]).filter
            (fun r => !(r.userId == u && r.emoji == e)) = m.reactions := by
          rw [List.filter_append, filter_not_of_any_false m.reactions _ hexf]
          simp
        have h2 : (messageReact (messageReact store mid u e t1).1 mid u e t2).1 =
            saveMessage (messageReact store mid u e t1).1
              { m with reactions := m.reactions } := by
          rw [step _ _ t2 hf1, if_pos hex2]
          show saveMessage (messageReact store mid u e t1).1 { m with reactions := List.filter (fun r => !(r.userId == u && r.emoji == e)) (m.reactions ++ [⟨u, e, t1⟩]) } = _
          rw [hfilter]
        refine ⟨{ m with reactions := m.reactions }, ?_, ?_⟩
        · rw [h2]
          exact findById_saveMessage (messageReact store mid u e t1).1 mid _ _ hf1 rfl
        · intro q
          exact Iff.rfl

/-- Witness for C5 at a concrete store: adding a fresh reaction. -/
theorem react_toggle_witness :
    findById demoStore "m1" = some demoMsg ∧
    (∀ r ∈ demoMsg.reactions, ¬(r.userId = "u2" ∧ r.emoji = "heart")) ∧
    (messageReact demoStore "m1" "u2" "heart" 4).2 =
      .ok ⟨[⟨"u2", "heart", 4⟩], "added"⟩ := by
  refine ⟨by decide, by decide, ?_⟩
  exact (((react_toggle demoStore "m1" "u2" "heart" 4 5).2 demoMsg (by decide)).1
    (by decide))

/-! ## Claim C7: history is limited, ascending, most recent -/

theorem chatGetHistory_eq (store : List Message) (userId targetUserId : String)
    (limit : Nat) :
    chatGetHistory store userId targetUserId limit =
      (((store.filter (fun m =>
          m.conversationId == historyRequestConversationId userId targetUserId)).mergeSort
            byCreatedAtDesc).take limit).reverse := rfl

theorem byCreatedAtDesc_trans (a b c : Message) :
    byCreatedAtDesc a b → byCreatedAtDesc b c → byCreatedAtDesc a c := by
  intro h1 h2
  simp only [byCreatedAtDesc, decide_eq_true_eq] at h1 h2 ⊢
  omega

theorem byCreatedAtDesc_total (a b : Message) :
    byCreatedAtDesc a b || byCreatedAtDesc b a := by
  simp only [byCreatedAtDesc, Bool.or_eq_true, decide_eq_true_eq]
  omega

/-- Claim C7: the history returned for a conversation has at most `limit`
entries, is ascending in creation time, and whenever a matching stored
message is left out, it is no more recent than anything returned. -/
theorem history_limit_order_recent (store : List Message)
    (userId targetUserId : String) (limit : Nat) :
    (chatGetHistory store userId targetUserId limit).length ≤ limit ∧
    (chatGetHistory store userId targetUserId limit).Pairwise
      (fun x y => x.createdAt ≤ y.createdAt) ∧
    (∀ m ∈ store,
      m.conversationId = historyRequestConversationId userId targetUserId →
      m ∉ chatGetHistory store userId targetUserId limit →
      ∀ m2 ∈ chatGetHistory store userId targetUserId limit,
        m.createdAt ≤ m2.createdAt) := by
  have hs : ((store.filter (fun m =>
      m.conversationId == historyRequestConversationId userId targetUserId)).mergeSort
        byCreatedAtDesc).Pairwise (fun a b => byCreatedAtDesc a b = true) :=
    List.sorted_mergeSort byCreatedAtDesc_trans byCreatedAtDesc_total _
  refine ⟨?_, ?_, ?_⟩
  · rw [chatGetHistory_eq, List.length_reverse, List.length_take]
    exact Nat.min_le_left _ _
  · rw [chatGetHistory_eq]
    refine List.pairwise_reverse.mpr ?_
    have htake := List.Pairwise.sublist (List.take_sublist limit _) hs
    exact htake.imp (fun h => by
      simpa [byCreatedAtDesc, decide_eq_true_eq] using h)
  · intro m hm hcid hnot m2 hm2
    have hmf : m ∈ store.filter (fun mm =>
        mm.conversationId == historyRequestConversationId userId targetUserId) :=
      List.mem_filter.mpr ⟨hm, by simp [hcid]⟩
    have hms : m ∈ (store.filter (fun mm =>
        mm.conversationId == historyRequestConversationId userId targetUserId)).mergeSort
          byCreatedAtDesc :=
      (List.mergeSort_perm _ byCreatedAtDesc).mem_iff.mpr hmf
    rw [chatGetHistory_eq, List.mem_reverse] at hnot hm2
    have hdrop : m ∈ ((store.filter (fun mm =>
        mm.conversationId == historyRequestConversationId userId targetUserId)).mergeSort
          byCreatedAtDesc).drop limit := by
      have hsplit := List.take_append_drop limit ((store.filter (fun mm =>
        mm.conversationId == historyRequestConversationId userId targetUserId)).mergeSort
          byCreatedAtDesc)
      rw [← hsplit] at hms
      rcases List.mem_append.mp hms with h | h
      · exact absurd h hnot
      · exact h
    have hrel := List.Sorted.rel_of_mem_take_of_mem_drop hs hm2 hdrop
    simpa [byCreatedAtDesc, decide_eq_true_eq] using hrel

/-- Witness instantiating C7 at a concrete store and limit. -/
theorem history_limit_order_recent_witness :
    (chatGetHistory demoStore "u1" "u2" 50).length ≤ 50 ∧
    (chatGetHistory demoStore "u1" "u2" 50).Pairwise
      (fun x y => x.createdAt ≤ y.createdAt) ∧
    (∀ m ∈ demoStore,
      m.conversationId = historyRequestConversationId "u1" "u2" →
      m ∉ chatGetHistory demoStore "u1" "u2" 50 →
      ∀ m2 ∈ chatGetHistory demoStore "u1" "u2" 50,
        m.createdAt ≤ m2.createdAt) :=
  history_limit_order_recent demoStore "u1" "u2" 50

/-! ## Claim C10: `isRead` is never set -/

/-- The store-touching socket operations exposed by the server. -/
inductive ServerOp where
  | sendMessage (targetUserId : String) (message : Option String)
      (senderId : String) (messageType : Option String)
      (fileUrl fileName : Option String) (fileSize : Option Nat)
      (replyTo : Option String) (newId : String)
  | react (messageId userId emoji : String)
  | edit (messageId userId newText : String)
  | tombstone (messageId userId : String)
  | getHistory (userId targetUserId : String) (limit : Nat)

/-- The store after one socket event is handled. `chat:get-history` only
reads, so its store component is the identity. -/
def applyOp (store : List Message) (now : Nat) : ServerOp → List Message
  | .sendMessage targetUserId message senderId messageType fileUrl fileName fileSize replyTo newId =>
      (chatMessageHandler store targetUserId message senderId messageType
        fileUrl fileName fileSize replyTo newId now).1
  | .react mid u e => (messageReact store mid u e now).1
  | .edit mid u t => (messageEdit store mid u t now).1
  | .tombstone mid u => (messageDelete store mid u now).1
  | .getHistory _ _ _ => store

theorem messageCreate_isRead (d : MessageDraft) (i : String) (t : Nat)
    (m : Message) (h : messageCreate d i t = .ok m) : m.isRead = false := by
  unfold messageCreate at h
  by_cases hv : validateMessage d = true
  · rw [if_pos hv] at h
    cases h
    rfl
  · rw [if_neg hv] at h
    simp at h

theorem mem_saveMessage (store : List Message) (upd : Message) (x : Message)
    (hx : x ∈ saveMessage store upd) : x ∈ store ∨ x = upd := by
  unfold saveMessage at hx
  obtain ⟨y, hy, hxy⟩ := List.mem_map.mp hx
  by_cases hc : (y.mongoId == upd.mongoId) = true
  · right
    rw [← hxy, if_pos hc]
  · left
    rw [← hxy, if_neg hc]
    exact hy

theorem isRead_preserved_save (store : List Message) (upd : Message)
    (h : ∀ m ∈ store, m.isRead = false) (hupd : upd.isRead = false) :
    ∀ x ∈ saveMessage store upd, x.isRead = false := by
  intro x hx
  rcases mem_saveMessage store upd x hx with hx | hx
  · exact h x hx
  · rw [hx]
    exact hupd

/-- Claim C10: starting from a store where every message has `isRead =
false`, every exposed operation leaves every message with `isRead = false`,
and history retrieval leaves the store exactly unchanged. -/
theorem isRead_never_set (store : List Message) (now : Nat) (op : ServerOp)
    (h : ∀ m ∈ store, m.isRead = false) :
    (∀ x ∈ applyOp store now op, x.isRead = false) ∧
    (∀ (userId targetUserId : String) (limit : Nat),
      applyOp store now (ServerOp.getHistory userId targetUserId limit) = store) := by
  constructor
  · cases op with
    | sendMessage targetUserId message senderId messageType fileUrl fileName fileSize replyTo newId =>
      simp only [applyOp, chatMessageHandler]
      split
      · rename_i m' hc
        intro x hx
        rcases List.mem_append.mp hx with hx | hx
        · exact h x hx
        · have hx' : x = m' := by simpa using hx
          rw [hx']
          exact messageCreate_isRead _ _ _ _ hc
      · intro x hx
        exact h x hx
    | react mid u e =>
      show ∀ x ∈ (messageReact store mid u e now).1, x.isRead = false
      cases hf : findById store mid with
      | none =>
        simp only [messageReact, hf]
        exact h
      | some m =>
        have hm : m ∈ store := List.mem_of_find?_eq_some hf
        have heq : (messageReact store mid u e now).1 =
            saveMessage store { m with reactions := if m.reactions.any (fun r => r.userId == u && r.emoji == e) then m.reactions.filter (fun r => !(r.userId == u && r.emoji == e)) else m.reactions ++ [⟨u, e, now⟩] } := by
          by_cases hc : m.reactions.any (fun r => r.userId == u && r.emoji == e) = true
          · simp [messageReact, hf, hc]
          · have hc' := Bool.eq_false_iff.mpr hc
            simp [messageReact, hf, hc']
        rw [heq]
        exact isRead_preserved_save store _ h (h m hm)
    | edit mid u t =>
      show ∀ x ∈ (messageEdit store mid u t now).1, x.isRead = false
      cases hf : findById store mid with
      | none =>
        simp only [messageEdit, hf]
        exact h
      | some m =>
        have hm : m ∈ store := List.mem_of_find?_eq_some hf
        by_cases hsu : (m.senderId == u) = true
        · have heq : (messageEdit store mid u t now).1 =
              saveMessage store { m with text := t, isEdited := true, editedAt := some now } := by
            simp [messageEdit, hf, hsu]
          rw [heq]
          exact isRead_preserved_save store _ h (h m hm)
        · have hsu' := Bool.eq_false_iff.mpr hsu
          have heq : (messageEdit store mid u t now).1 = store := by
            simp [messageEdit, hf, hsu']
          rw [heq]
          exact h
    | tombstone mid u =>
      show ∀ x ∈ (messageDelete store mid u now).1, x.isRead = false
      cases hf : findById store mid with
      | none =>
        simp only [messageDelete, hf]
        exact h
      | some m =>
        have hm : m ∈ store := List.mem_of_find?_eq_some hf
        by_cases hsu : (m.senderId == u) = true
        · have heq : (messageDelete store mid u now).1 =
              saveMessage store { m with text := "This message was deleted", isDeleted := true, deletedAt := some now } := by
            simp [messageDelete, hf, hsu]
          rw [heq]
          exact isRead_preserved_save store _ h (h m hm)
        · have hsu' := Bool.eq_false_iff.mpr hsu
          have heq : (messageDelete store mid u now).1 = store := by
            simp [messageDelete, hf, hsu']
          rw [heq]
          exact h
    | getHistory a b l =>
      exact h
  · intro a b l
    rfl

/-- Witness for C10: an edit on a concrete store keeps `isRead = false`. -/
theorem isRead_never_set_witness :
    (∀ m ∈ demoStore, m.isRead = false) ∧
    (∀ x ∈ applyOp demoStore 3 (ServerOp.edit "m1" "u1" "yo"), x.isRead = false) := by
  refine ⟨by decide, ?_⟩
  exact (isRead_never_set demoStore 3 (ServerOp.edit "m1" "u1" "yo") (by decide)).1

/-! ## Call-room negotiation (`joinVideoCallRoom` handler) -/

/-- In-memory signaling state: the socket-room adapter (`meetingId` to the
insertion-ordered set of socket ids) and the per-socket stored
`videoUserName` / `videoNativeLanguage` fields. -/
structure RoomState where
  rooms : List (String × List String)
  props : List (String × (String × String))
deriving DecidableEq

/-- The adapter's member set for a room; a missing room is empty. -/
def roomGet (rooms : List (String × List String)) (meetingId : String) :
    List String :=
  (amGet rooms meetingId).getD []

/-- The stored `videoUserName`/`videoNativeLanguage` of a socket; an unset
field reads as the empty (falsy) string. -/
def propsGet (props : List (String × (String × String))) (socketId : String) :
    String × String :=
  (amGet props socketId).getD ("", "")

/-- Events emitted during room negotiation. -/
inductive RoomEvent where
  | roomRole (target role : String)
      (otherSocketId otherUserName otherUserLanguage : Option String)
      (message : String)
  | expectingCallFrom (target socketId userName userLanguage : String)
deriving DecidableEq

/-- The `joinVideoCallRoom` handler: `socket.join(meetingId)` adds the
socket to the room unconditionally; afterwards the room size decides the
role: size 1 gets "waiter", size 2 gets "caller" plus an
`expectingCallFrom` notice to the first member, any larger size does
nothing further. -/
def joinVideoCallRoom (s : RoomState)
    (meetingId socketId userName nativeLanguage : String) :
    RoomState × List RoomEvent :=
  let members := roomGet s.rooms meetingId
  let joined := if socketId ∈ members then members else members ++ [socketId]
  let rooms2 := amSet s.rooms meetingId joined
  let roomSize := joined.length
  if roomSize = 1 then
    ({ rooms := rooms2, props := amSet s.props socketId (userName, nativeLanguage) },
     [.roomRole socketId "waiter" none none none "Waiting for other participant..."])
  else if roomSize = 2 then
    let props2 := amSet s.props socketId (userName, nativeLanguage)
    match joined.find? (fun id => id != socketId) with
    | some firstPerson =>
        let firstProps := propsGet s.props firstPerson
        ({ rooms := rooms2, props := props2 },
         [.roomRole socketId "caller" (some firstPerson)
            (some (strOr firstProps.1 "Other participant"))
            (some (strOr firstProps.2 "en-US")) "Ready to start call",
          .expectingCallFrom firstPerson socketId userName
            (strOr nativeLanguage "en-US")])
    | none => ({ rooms := rooms2, props := props2 }, [])
  else
    ({ rooms := rooms2, props := s.props }, [])

theorem roomGet_amSet (rooms : List (String × List String)) (k : String)
    (v : List String) : roomGet (amSet rooms k v) k = v := by
  unfold roomGet
  rw [amGet_amSet_self]
  rfl

/-- The room state reached when sockets A, B and C join room `m1` in turn. -/
def threeJoinState : RoomState :=
  (joinVideoCallRoom
    (joinVideoCallRoom
      (joinVideoCallRoom ⟨[], []⟩ "m1" "sA" "Alice" "en-US").1
      "m1" "sB" "Bob" "fr-FR").1
    "m1" "sC" "Cara" "de-DE").1

/-- Claim C3 is false on the code: `socket.join` is unconditional, so a
third joiner does enter the room and its member count reaches 3. -/
theorem room_reaches_three_members :
    (roomGet threeJoinState.rooms "m1").length = 3 := by decide

/-- Amended C3: every join of a socket not yet in the room appends it to
the member set, with no capacity check; when the room already has at least
2 members the joiner is added silently and no role event is emitted, so
room size grows beyond 2. -/
theorem joinRoom_unbounded (s : RoomState)
    (meetingId socketId userName nativeLanguage : String)
    (hmem : socketId ∉ roomGet s.rooms meetingId) :
    roomGet (joinVideoCallRoom s meetingId socketId userName nativeLanguage).1.rooms
      meetingId = roomGet s.rooms meetingId ++ [socketId] ∧
    (2 ≤ (roomGet s.rooms meetingId).length →
      (joinVideoCallRoom s meetingId socketId userName nativeLanguage).2 = []) := by
  have hjoined : (if socketId ∈ roomGet s.rooms meetingId then roomGet s.rooms meetingId else roomGet s.rooms meetingId ++ [socketId]) = roomGet s.rooms meetingId ++ [socketId] :=
    if_neg hmem
  constructor
  · have key : (joinVideoCallRoom s meetingId socketId userName nativeLanguage).1.rooms =
        amSet s.rooms meetingId (roomGet s.rooms meetingId ++ [socketId]) := by
      unfold joinVideoCallRoom
      simp only [hjoined]
      split
      · rfl
      · split
        · split <;> rfl
        · rfl
    rw [key, roomGet_amSet]
  · intro hlen
    have h1 : ¬ ((roomGet s.rooms meetingId ++ [socketId]).length = 1) := by
      simp only [List.length_append, List.length_cons, List.length_nil]
      omega
    have h2 : ¬ ((roomGet s.rooms meetingId ++ [socketId]).length = 2) := by
      simp only [List.length_append, List.length_cons, List.length_nil]
      omega
    unfold joinVideoCallRoom
    simp only [hjoined]
    rw [if_neg h1, if_neg h2]

/-- Witness for the amended C3: socket C joining a two-member room. -/
theorem joinRoom_unbounded_witness :
    ("sC" ∉ roomGet (joinVideoCallRoom (joinVideoCallRoom ⟨[], []⟩ "m1" "sA" "Alice" "en-US").1 "m1" "sB" "Bob" "fr-FR").1.rooms "m1") ∧
    roomGet threeJoinState.rooms "m1" =
      roomGet (joinVideoCallRoom (joinVideoCallRoom ⟨[], []⟩ "m1" "sA" "Alice" "en-US").1 "m1" "sB" "Bob" "fr-FR").1.rooms "m1" ++ ["sC"] ∧
    (joinVideoCallRoom (joinVideoCallRoom (joinVideoCallRoom ⟨[], []⟩ "m1" "sA" "Alice" "en-US").1 "m1" "sB" "Bob" "fr-FR").1 "m1" "sC" "Cara" "de-DE").2 = [] := by
  refine ⟨by decide, ?_, ?_⟩
  · exact (joinRoom_unbounded _ "m1" "sC" "Cara" "de-DE" (by decide)).1
  · exact (joinRoom_unbounded _ "m1" "sC" "Cara" "de-DE" (by decide)).2 (by decide)

theorem propsGet_amSet (props : List (String × (String × String)))
    (k : String) (v : String × String) : propsGet (amSet props k v) k = v := by
  unfold propsGet
  rw [amGet_amSet_self]
  rfl

/-! ## Claim C8: waiter/caller role assignment by arrival order -/

/-- Claim C8: A joining an empty room gets role "waiter"; B then joining
gets role "caller" together with A's connection id, display name and
locale, while A receives an `expectingCallFrom` notice carrying B's
connection id, display name and locale. -/
theorem room_roles_by_arrival (s : RoomState)
    (m a b nameA langA nameB langB : String)
    (hroom : roomGet s.rooms m = []) (hab : a ≠ b)
    (hnameA : nameA ≠ "") (hlangA : langA ≠ "") (hlangB : langB ≠ "") :
    (joinVideoCallRoom s m a nameA langA).2 =
      [.roomRole a "waiter" none none none "Waiting for other participant..."] ∧
    (joinVideoCallRoom (joinVideoCallRoom s m a nameA langA).1 m b nameB langB).2 =
      [.roomRole b "caller" (some a) (some nameA) (some langA) "Ready to start call",
       .expectingCallFrom a b nameB langB] := by
  have hs1 : (joinVideoCallRoom s m a nameA langA).1 =
      RoomState.mk (amSet s.rooms m [a]) (amSet s.props a (nameA, langA)) := by
    simp [joinVideoCallRoom, hroom]
  constructor
  · simp [joinVideoCallRoom, hroom]
  · rw [hs1]
    have hba : b ≠ a := Ne.symm hab
    simp [joinVideoCallRoom, roomGet_amSet, propsGet_amSet, hba, hab,
      strOr, hnameA, hlangA, hlangB]

/-- Witness for C8 with two concrete sockets joining room `m1`. -/
theorem room_roles_by_arrival_witness :
    roomGet (RoomState.mk [] []).rooms "m1" = [] ∧
    ("sA" : String) ≠ "sB" ∧
    (joinVideoCallRoom ⟨[], []⟩ "m1" "sA" "Alice" "en-US").2 =
      [.roomRole "sA" "waiter" none none none "Waiting for other participant..."] ∧
    (joinVideoCallRoom (joinVideoCallRoom ⟨[], []⟩ "m1" "sA" "Alice" "en-US").1
        "m1" "sB" "Bob" "fr-FR").2 =
      [.roomRole "sB" "caller" (some "sA") (some "Alice") (some "en-US") "Ready to start call",
       .expectingCallFrom "sA" "sB" "Bob" "fr-FR"] := by
  refine ⟨by decide, by decide, ?_, ?_⟩
  · exact (room_roles_by_arrival ⟨[], []⟩ "m1" "sA" "sB" "Alice" "en-US" "Bob"
      "fr-FR" (by decide) (by decide) (by decide) (by decide) (by decide)).1
  · exact (room_roles_by_arrival ⟨[], []⟩ "m1" "sA" "sB" "Alice" "en-US" "Bob"
      "fr-FR" (by decide) (by decide) (by decide) (by decide) (by decide)).2

/-! ## Claim C9: the failure surface of the client-originated handlers -/

/-- The client-originated socket events, across both server variants. -/
inductive ClientEvent where
  | userJoin
  | chatMessage
  | chatGetHistory
  | messageReactEvent
  | messageEditEvent
  | messageDeleteEvent
  | webrtcOffer
  | webrtcAnswer
  | webrtcIceCandidate
  | callEnd
  | videoCallInvitation
  | joinVideoCallRoomEvent
  | callUser
  | answerCall
  | callEnded
deriving DecidableEq

/-- What each handler's `catch` block emits back to the originating socket
when handling fails: `some msg` for a generic `error` event with that
human-readable message, `none` when the failure is only logged. Read off
the `catch` blocks of `server.js` lines 81–84, 162–165, 203–206, 260–263,
311–314, 361–364, 386–389, 401–404, 416–418, 430–432 and the extended
server's video-call handlers. -/
def catchEmits : ClientEvent → Option String
  | .userJoin => some "Failed to join"
  | .chatMessage => some "Failed to send message"
  | .chatGetHistory => some "Failed to load chat history"
  | .messageReactEvent => some "Failed to add reaction"
  | .messageEditEvent => some "Failed to edit message"
  | .messageDeleteEvent => some "Failed to delete message"
  | .webrtcOffer => some "Failed to send call offer"
  | .webrtcAnswer => some "Failed to send call answer"
  | .webrtcIceCandidate => none
  | .callEnd => none
  | .videoCallInvitation => none
  | .joinVideoCallRoomEvent => none
  | .callUser => none
  | .answerCall => none
  | .callEnded => none

/-- Claim C9 is false on the code: the `webrtc:ice-candidate` and
`call:end` catch blocks (and all of the video-room handlers, including
`callUser`) only log, so their failures send nothing to the sender. -/
theorem ice_candidate_failure_silent :
    catchEmits ClientEvent.webrtcIceCandidate = none ∧
    catchEmits ClientEvent.callEnd = none ∧
    catchEmits ClientEvent.callUser = none ∧
    ¬ (∀ ev : ClientEvent, (catchEmits ev).isSome = true) := by
  refine ⟨rfl, rfl, rfl, ?_⟩
  intro hall
  have := hall ClientEvent.webrtcIceCandidate
  simp [catchEmits] at this

/-- Amended C9: failures in the join, chat, history, reaction, edit,
delete, offer and answer handlers each yield exactly one generic error
event with a human-readable message to the originating connection; failures
in the connectivity-candidate, end-call and video-room handlers are logged
and swallowed, emitting nothing. -/
theorem failure_surface_by_handler :
    catchEmits ClientEvent.userJoin = some "Failed to join" ∧
    catchEmits ClientEvent.chatMessage = some "Failed to send message" ∧
    catchEmits ClientEvent.chatGetHistory = some "Failed to load chat history" ∧
    catchEmits ClientEvent.messageReactEvent = some "Failed to add reaction" ∧
    catchEmits ClientEvent.messageEditEvent = some "Failed to edit message" ∧
    catchEmits ClientEvent.messageDeleteEvent = some "Failed to delete message" ∧
    catchEmits ClientEvent.webrtcOffer = some "Failed to send call offer" ∧
    catchEmits ClientEvent.webrtcAnswer = some "Failed to send call answer" ∧
    catchEmits ClientEvent.webrtcIceCandidate = none ∧
    catchEmits ClientEvent.callEnd = none ∧
    catchEmits ClientEvent.videoCallInvitation = none ∧
    catchEmits ClientEvent.joinVideoCallRoomEvent = none ∧
    catchEmits ClientEvent.callUser = none ∧
    catchEmits ClientEvent.answerCall = none ∧
    catchEmits ClientEvent.callEnded = none :=
  ⟨rfl, rfl, rfl, rfl, rfl, rfl, rfl, rfl, rfl, rfl, rfl, rfl, rfl, rfl, rfl⟩

end GlobaLingo
